import Mathlib

/-!
Verification of the g2historyapi server (src/server.js) against its
natural-language specification.  The file shallowly embeds the parts of the
program the claims are about: the in-memory cache (`memoryCache`, lines
35-44), the cache-clearing endpoint (lines 301-311), the ranking handler's
TTL check and sort (lines 346-449), the match sync orchestration (lines
478-635), the upcoming-matches read (lines 705-715), the calendar handler
(lines 732-801), the bearer-token middleware `requireApiKey` (lines 14-21)
and the Express route registration order of both revisions of server.js.
Browser automation and DOM extraction are represented by their outcome (an
`Except` carrying either the extracted records or a failure), matching the
spec's scoping of the scraper to its output shape and failure policy.
-/

/-! ### Rows and records (data model) -/

/-- A row of the `years` table (`SELECT * FROM years`, server.js line 133). -/
structure YearRow where
  id : Nat
  year : String
deriving DecidableEq, Repr

/-- A row of the `players` table (server.js lines 172, 269-271). -/
structure PlayerRow where
  id : String
  nickname : String
  years : String
deriving DecidableEq, Repr

/-- One extracted ranking entry (server.js lines 430-435): nickname, tier,
league points and page rank as scraped from the leaderboard page. -/
structure RankEntry where
  nickname : String
  tier : String
  lp : Int
  rank : String
deriving DecidableEq, Repr

/-- One record of the `matches_upcoming` table, in the column order of the
INSERT at server.js lines 606-624.  `team1` and `team2` are non-null because
the scraper only pushes a record when both are present (line 583). -/
structure MatchRec where
  id : String
  team1 : String
  team1Logo : Option String
  team2 : String
  team2Logo : Option String
  bo : Option String
  date : Option String
  streamsTwitch : Option String
  streamsYoutube : Option String
  tournamentName : Option String
  tournamentUrl : Option String
  tournamentLogo : Option String
deriving DecidableEq, Repr

/-! ### JS `Map` as an association list (insertion order preserved) -/

/-- `Map.prototype.get`: value of the first (unique) binding of `k`. -/
def mapGet {α : Type} (m : List (String × α)) (k : String) : Option α :=
  match m with
  | [] => none
  | (k0, v0) :: rest => if k0 = k then some v0 else mapGet rest k

/-- `Map.prototype.set`: overwrite the binding of `k` in place, or append. -/
def mapSet {α : Type} (m : List (String × α)) (k : String) (v : α) :
    List (String × α) :=
  match m with
  | [] => [(k, v)]
  | (k0, v0) :: rest =>
    if k0 = k then (k0, v) :: rest else (k0, v0) :: mapSet rest k v

/-! ### The in-memory cache (server.js lines 35-44) -/

/-- The shared `memoryCache` object.  `null` fields are `none`; the two JS
`Map`s are association lists.  A JS array is truthy even when empty, so the
`Option` wrapper models exactly the `if (memoryCache.x)` null checks on the
array-valued fields. -/
structure MemoryCache where
  years : Option (List YearRow)
  players : Option (List PlayerRow)
  playersByYear : List (String × List PlayerRow)
  playerByIdOrNickname : List (String × PlayerRow)
  ranking : Option (List RankEntry)
  rankingTimestamp : Option Int
  «matches» : Option (List MatchRec)
  matchesTimestamp : Option Int
deriving DecidableEq, Repr

/-- The initializer of `memoryCache` (server.js lines 35-44). -/
def initialMemoryCache : MemoryCache :=
  { years := none
    players := none
    playersByYear := []
    playerByIdOrNickname := []
    ranking := none
    rankingTimestamp := none
    «matches» := none
    matchesTimestamp := none }

/-- `CACHE_DURATION = 60 * 60 * 1000` (server.js line 46). -/
def CACHE_DURATION : Int := 60 * 60 * 1000

/-- The `POST /cache/clear` handler's mutations (server.js lines 301-311):
every field is reset to `null` and both Maps are cleared. -/
def clearCache (c : MemoryCache) : MemoryCache :=
  { c with
    years := none
    players := none
    playersByYear := []
    playerByIdOrNickname := []
    ranking := none
    rankingTimestamp := none
    «matches» := none
    matchesTimestamp := none }

/-! ### Sync orchestration (`POST /matches/sync`, server.js lines 478-635)

The fetch phase (browser launch, navigation, waitForSelector, extraction,
lines 481-600) either produces the extracted record list or throws; the
whole handler body is one `try` block, so a throw in the fetch phase reaches
the `catch` (line 629) before the database section (lines 602-626) runs.
`syncMatchesOps` is the exact sequence of statements the handler issues
against `matches_upcoming` for a given fetch outcome. -/

/-- A write statement issued against the `matches_upcoming` table. -/
inductive DbOp where
  | deleteAllMatches
  | insertMatch (m : MatchRec)
deriving DecidableEq, Repr

/-- Effect of one statement on the table contents.
`DELETE FROM matches_upcoming` empties the table; the INSERT appends. -/
def applyOp (db : List MatchRec) : DbOp → List MatchRec
  | .deleteAllMatches => []
  | .insertMatch m => db ++ [m]

/-- Effect of a statement sequence on the table contents. -/
def applyOps (db : List MatchRec) (ops : List DbOp) : List MatchRec :=
  ops.foldl applyOp db

/-- The write statements `POST /matches/sync` issues for a given fetch
outcome: on success one `DELETE FROM matches_upcoming` (line 603) followed by
one INSERT per fetched record in order (lines 604-626); on a fetch failure
the `catch` is reached before the database section, so no statement at all. -/
def syncMatchesOps : Except String (List MatchRec) → List DbOp
  | .ok ms => DbOp.deleteAllMatches :: ms.map DbOp.insertMatch
  | .error _ => []

/-- The HTTP response of `POST /matches/sync`. -/
inductive SyncResp where
  | ok (updated : Nat)
  | serverError (msg : String)
deriving DecidableEq, Repr

/-- Status code of a sync response: `res.json` defaults to 200,
the catch uses `res.status(500)` (line 631). -/
def SyncResp.statusCode : SyncResp → Nat
  | .ok _ => 200
  | .serverError _ => 500

/-- The response body of `POST /matches/sync` (lines 628 and 631):
`{status: "ok", updated: matches.length}` on success, a 500 error on
failure. -/
def syncRespond : Except String (List MatchRec) → SyncResp
  | .ok ms => .ok ms.length
  | .error _ => .serverError "Error al sincronizar partidos"

/-! ### `GET /matches/upcoming` (server.js lines 705-715) -/

/-- Ascending order on the nullable `date` column: SQL `ORDER BY date` sorts
NULLs first, then text ascending. -/
def odateLe : Option String → Option String → Prop
  | none, _ => True
  | some _, none => False
  | some x, some y => x ≤ y

instance : DecidableRel odateLe
  | none, _ => isTrue trivial
  | some _, none => isFalse (fun h => h)
  | some x, some y => inferInstanceAs (Decidable (x ≤ y))

instance : IsTotal (Option String) odateLe where
  total a b := by
    cases a with
    | none => exact Or.inl trivial
    | some x =>
      cases b with
      | none => exact Or.inr trivial
      | some y => exact le_total x y

instance : IsTrans (Option String) odateLe where
  trans a b c hab hbc := by
    cases a with
    | none => trivial
    | some x =>
      cases b with
      | none => exact False.elim hab
      | some y =>
        cases c with
        | none => exact False.elim hbc
        | some z => exact le_trans hab hbc

/-- Row order used by `ORDER BY date`. -/
def matchLe (a b : MatchRec) : Prop := odateLe a.date b.date

instance : DecidableRel matchLe :=
  fun a b => inferInstanceAs (Decidable (odateLe a.date b.date))

instance : IsTotal MatchRec matchLe :=
  ⟨fun a b => total_of odateLe a.date b.date⟩

instance : IsTrans MatchRec matchLe :=
  ⟨fun a b c hab hbc =>
    @IsTrans.trans (Option String) odateLe _ a.date b.date c.date hab hbc⟩

/-- `GET /matches/upcoming`: `SELECT * FROM matches_upcoming ORDER BY date`
(server.js lines 707-709), modelled as a stable sort of the table contents by
ascending date. -/
def getUpcomingMatches (db : List MatchRec) : List MatchRec :=
  db.insertionSort matchLe

/-! ### The ranking endpoint (`GET /ranking`, server.js lines 346-449) -/

/-- The handler's cache check (server.js lines 349-356):

  memoryCache.ranking && memoryCache.rankingTimestamp &&
    now - memoryCache.rankingTimestamp < CACHE_DURATION

`ranking` is an array or `null`; an array is truthy even when empty, so that
conjunct is exactly a null check.  `rankingTimestamp` is a number or `null`;
a number is truthy iff it is nonzero, hence the `t ≠ 0` conjunct.  The check
is parameterized over the TTL and the current time. -/
def checkRankingCache (c : MemoryCache) (ttl now : Int) :
    Option (List RankEntry) :=
  match c.ranking, c.rankingTimestamp with
  | some v, some t => if t ≠ 0 ∧ now - t < ttl then some v else none
  | _, _ => none

/-- The comparator order of `rankingData.sort((a, b) => b.lp - a.lp)`
(server.js line 441): league points descending. -/
def rankGe (a b : RankEntry) : Prop := b.lp ≤ a.lp

instance : DecidableRel rankGe :=
  fun a b => inferInstanceAs (Decidable (b.lp ≤ a.lp))

instance : IsTotal RankEntry rankGe := ⟨fun a b => le_total b.lp a.lp⟩

instance : IsTrans RankEntry rankGe :=
  ⟨fun _ _ _ h1 h2 => le_trans h2 h1⟩

/-- `rankingData.sort((a, b) => b.lp - a.lp)`: `Array.prototype.sort` is
stable, so its denotation is the stable descending sort by `lp`. -/
def sortRanking (l : List RankEntry) : List RankEntry :=
  l.insertionSort rankGe

/-- The HTTP response of `GET /ranking`. -/
inductive RankingResp where
  | ok (data : List RankEntry)
  | serverError (msg : String)
deriving DecidableEq, Repr

/-- Status code of a ranking response (200 for `res.json`, 500 in the
catch, server.js line 447). -/
def RankingResp.statusCode : RankingResp → Nat
  | .ok _ => 200
  | .serverError _ => 500

/-- The `GET /ranking` handler (server.js lines 346-449): serve the cached
ranking when the TTL check passes; otherwise run the scrape (whose outcome is
the `fetched` argument), sort the extracted entries by `lp` descending, store
them with the current timestamp and respond; a scrape failure reaches the
catch and responds 500 with the cache untouched. -/
def handleRanking (c : MemoryCache) (now : Int)
    (fetched : Except String (List RankEntry)) : RankingResp × MemoryCache :=
  match checkRankingCache c CACHE_DURATION now with
  | some cached => (.ok cached, c)
  | none =>
    match fetched with
    | .error _ => (.serverError "Error interno del servidor", c)
    | .ok data =>
      let sorted := sortRanking data
      (.ok sorted, { c with ranking := some sorted, rankingTimestamp := some now })

/-! ### Cached read handlers (`GET /years`, `GET /players/:identifier`) -/

/-- The `GET /years` handler (server.js lines 128-140): serve the cached
array when present, otherwise query the store, cache the rows and respond.
The third component records whether the store was queried. -/
def handleGetYears (c : MemoryCache) (storeYears : List YearRow) :
    List YearRow × MemoryCache × Bool :=
  match c.years with
  | some ys => (ys, c, false)
  | none => (storeYears, { c with years := some storeYears }, true)

/-- The HTTP response of `GET /players/:identifier`. -/
inductive PlayerResp where
  | found (p : PlayerRow)
  | notFound (msg : String)
deriving DecidableEq, Repr

/-- Status code of a player response (200 for `res.json`, 404 at
server.js line 274). -/
def PlayerResp.statusCode : PlayerResp → Nat
  | .found _ => 200
  | .notFound _ => 404

/-- The `GET /players/:identifier` handler (server.js lines 263-282): serve
the cached row when the Map has the key; otherwise query
`SELECT * FROM players WHERE id = ? OR nickname = ?` (modelled by the total
function `store`); zero rows yield a 404 without caching anything; otherwise
the first row is cached under the identifier and returned.  The third
component records whether the store was queried. -/
def handleGetPlayer (c : MemoryCache) (store : String → List PlayerRow)
    (identifier : String) : PlayerResp × MemoryCache × Bool :=
  match mapGet c.playerByIdOrNickname identifier with
  | some p => (.found p, c, false)
  | none =>
    match store identifier with
    | [] => (.notFound "Jugador no encontrado", c, true)
    | p :: _ =>
      (.found p,
       { c with playerByIdOrNickname :=
           mapSet c.playerByIdOrNickname identifier p },
       true)

/-! ### Cache mutation events

Every mutation the handlers perform on `memoryCache`, used to state how long
a cached entry survives. -/

/-- A mutation of `memoryCache` performed by some handler. -/
inductive CacheEvent where
  | putPlayer (k : String) (v : PlayerRow)
  | putYears (ys : List YearRow)
  | putRanking (data : List RankEntry) (now : Int)
  | clearAll
deriving DecidableEq, Repr

/-- Effect of one cache event, matching the corresponding handler lines:
`putPlayer` is the Map set at line 276, `putYears` line 134, `putRanking`
lines 442-443, `clearAll` the `POST /cache/clear` body. -/
def stepCache (c : MemoryCache) : CacheEvent → MemoryCache
  | .putPlayer k v =>
    { c with playerByIdOrNickname := mapSet c.playerByIdOrNickname k v }
  | .putYears ys => { c with years := some ys }
  | .putRanking data now =>
    { c with ranking := some data, rankingTimestamp := some now }
  | .clearAll => clearCache c

/-- Whether an event overwrites or drops the player-cache entry of `k`. -/
def touchesPlayer (k : String) : CacheEvent → Bool
  | .putPlayer q _ => q == k
  | .clearAll => true
  | _ => false

/-! ### The calendar endpoint (`GET /calendar/:id`, server.js lines 732-801)

When `memoryCache.matches` is `null` the handler fetches the deployed
`GET /matches/upcoming` (its payload is the `upstream` argument), stores it
together with `Date.now()` and proceeds; otherwise it uses the cached list
as is — `matchesTimestamp` is never read.  The match is then looked up by id
with a linear scan; a miss is a 404.  Date parsing and `.ics` serialization
happen after the lookup and are out of the spec's scope. -/

/-- Outcome of the lookup phase of `GET /calendar/:id`. -/
inductive CalResp where
  | notFound
  | found (m : MatchRec)
deriving DecidableEq, Repr

/-- Result of one `GET /calendar/:id` request: the response, the cache
afterwards, and whether the matches list was fetched. -/
structure CalendarOutcome where
  resp : CalResp
  cache : MemoryCache
  fetched : Bool
deriving DecidableEq, Repr

/-- One `GET /calendar/:id` request (server.js lines 732-757). -/
def calendarStep (c : MemoryCache) (upstream : List MatchRec) (id : String)
    (now : Int) : CalendarOutcome :=
  match c.«matches» with
  | some ms =>
    match ms.find? (fun m => m.id == id) with
    | none => ⟨.notFound, c, false⟩
    | some m => ⟨.found m, c, false⟩
  | none =>
    let c1 := { c with «matches» := some upstream, matchesTimestamp := some now }
    match upstream.find? (fun m => m.id == id) with
    | none => ⟨.notFound, c1, true⟩
    | some m => ⟨.found m, c1, true⟩

/-! ### Bearer-token middleware and route registration order -/

/-- `String.prototype.split(sep)` for a one-character separator, on the
character list of the string. -/
def splitOnChar (sep : Char) : List Char → List (List Char)
  | [] => [[]]
  | x :: xs =>
    let rest := splitOnChar sep xs
    if x == sep then [] :: rest
    else
      match rest with
      | [] => [[x]]
      | r :: rs => (x :: r) :: rs

/-- The `requireApiKey` middleware predicate (server.js lines 14-21):

  const auth = req.get("Authorization") || "";
  const [scheme, key] = auth.split(" ");
  if (scheme !== "Bearer" || key !== process.env.API_KEY) -> 401

Returns `true` iff the request passes.  A missing header destructures to
`scheme = ""` and `key = undefined` (here: `parts[1]? = none`). -/
def requireApiKey (authHeader : Option String) (apiKey : String) : Bool :=
  let auth := authHeader.getD ""
  let parts := (splitOnChar ' ' auth.data).map (fun cs => String.mk cs)
  parts.getD 0 "" == "Bearer" && parts[1]? == some apiKey

/-- The handlers registered on the Express app. -/
inductive HandlerId where
  | root
  | health
  | syncDpm
  | years
  | players
  | playersByYear
  | playerByIdent
  | cacheClear
  | ranking
  | matchesSync
  | matchesUpcoming
  | calendar
deriving DecidableEq, Repr

/-- One registration on the Express app: either a route (method plus path
pattern) or the `app.use(requireApiKey)` middleware. -/
inductive AppEntry where
  | route (method : String) (pattern : String) (h : HandlerId)
  | useAuth
deriving DecidableEq, Repr

/-- Whether a pattern segment matches a path segment: an Express `:param`
segment matches anything, otherwise the segments must be equal. -/
def segMatches : List Char → List Char → Bool
  | ':' :: _, _ => true
  | ps, rs => ps == rs

/-- Whether an Express path pattern matches a concrete request path. -/
def pathMatches (pattern path : String) : Bool :=
  let ps := splitOnChar '/' pattern.data
  let rs := splitOnChar '/' path.data
  ps.length == rs.length && (ps.zip rs).all (fun pr => segMatches pr.1 pr.2)

/-- Outcome of routing one request through the app. -/
inductive Outcome where
  | handled (h : HandlerId)
  | unauthorized
  | notFound
deriving DecidableEq, Repr

/-- Express dispatch: walk the registrations in order; the first matching
route wins; reaching `app.use(requireApiKey)` with a failing token check
short-circuits to the 401 response before any later handler can run. -/
def dispatch (authOk : Bool) (method path : String) :
    List AppEntry → Outcome
  | [] => .notFound
  | .route m pat h :: rest =>
    if m == method && pathMatches pat path then .handled h
    else dispatch authOk method path rest
  | .useAuth :: rest =>
    if authOk then dispatch authOk method path rest else .unauthorized

/-- Registration order of the first revision of server.js (lines 72-801):
`/` and `/health` come first, then `app.use(requireApiKey)` at line 103
protects everything that follows. -/
def rev1App : List AppEntry :=
  [ .route "GET" "/" .root,
    .route "GET" "/health" .health,
    .useAuth,
    .route "GET" "/years" .years,
    .route "GET" "/players" .players,
    .route "GET" "/players/year/:year" .playersByYear,
    .route "GET" "/players/:identifier" .playerByIdent,
    .route "POST" "/cache/clear" .cacheClear,
    .route "GET" "/ranking" .ranking,
    .route "POST" "/matches/sync" .matchesSync,
    .route "GET" "/matches/upcoming" .matchesUpcoming,
    .route "GET" "/calendar/:id" .calendar ]

/-- Registration order of the second revision of server.js (lines 879-1907):
`POST /matches/sync-dpm` is registered at line 918, before the
`app.use(requireApiKey)` at line 1177. -/
def rev2App : List AppEntry :=
  [ .route "GET" "/" .root,
    .route "GET" "/health" .health,
    .route "POST" "/matches/sync-dpm" .syncDpm,
    .useAuth,
    .route "GET" "/years" .years,
    .route "GET" "/players" .players,
    .route "GET" "/players/year/:year" .playersByYear,
    .route "GET" "/players/:identifier" .playerByIdent,
    .route "POST" "/cache/clear" .cacheClear,
    .route "GET" "/ranking" .ranking,
    .route "POST" "/matches/sync" .matchesSync,
    .route "GET" "/matches/upcoming" .matchesUpcoming,
    .route "GET" "/calendar/:id" .calendar ]

/-- Sample player row used by concrete witnesses. -/
def p42 : PlayerRow := ⟨"42", "Caps", "2023,2024"⟩

/-- Second sample player row used by concrete witnesses. -/
def p7 : PlayerRow := ⟨"7", "BrokenBlade", "2024"⟩

/-- Sample ranking entry used by concrete counterexample states. -/
def capsEntry : RankEntry := ⟨"Caps", "Challenger", 1500, "3"⟩

/-- Sample match used by concrete witnesses. -/
def mA : MatchRec :=
  ⟨"G2 Esports-Fnatic-2025-06-20_18:00", "G2 Esports", none, "Fnatic", none,
   some "Bo5", some "2025-06-20 18:00", none, none, none, none, none⟩

/-- A second sample match, synced into the store after `mA` was cached. -/
def mB : MatchRec :=
  ⟨"G2 Esports-MKOI-2025-07-01_17:00", "G2 Esports", none, "MKOI", none,
   some "Bo3", some "2025-07-01 17:00", none, none, none, none, none⟩

/-- Cache state in which a calendar request has already populated the
matches list with `[mA]`. -/
def calExample : MemoryCache :=
  { initialMemoryCache with «matches» := some [mA], matchesTimestamp := some 1 }

/-- Cache state holding a fresh ranking entry computed at time 5. -/
def freshRankCache : MemoryCache :=
  { initialMemoryCache with ranking := some [capsEntry], rankingTimestamp := some 5 }

/-- Cache state whose ranking was stored with timestamp 0 — a falsy number
in JavaScript, so the handler's truthiness check treats the entry as
absent. -/
def zeroTsCache : MemoryCache :=
  { initialMemoryCache with ranking := some [capsEntry], rankingTimestamp := some 0 }

/-! ### Theorems start here -/

/-- Inserting a list of records appends them in order. -/
theorem foldl_insertMatch (ms : List MatchRec) (acc : List MatchRec) :
    (ms.map DbOp.insertMatch).foldl applyOp acc = acc ++ ms := by
  induction ms generalizing acc with
  | nil => simp
  | cons m rest ih => simp [applyOp, ih]

/-- C1: for every fetched record list, `POST /matches/sync` first deletes all
rows of `matches_upcoming`, then inserts each fetched record; the response is
200 with `updated` equal to the number of fetched records; the persisted set
afterwards is exactly the fetched list, regardless of the prior table
contents; and `GET /matches/upcoming` then returns exactly those rows (a
permutation of them) ordered by date ascending. -/
theorem sync_full_replace_c1 (db ms : List MatchRec) :
    syncMatchesOps (Except.ok ms) =
      DbOp.deleteAllMatches :: ms.map DbOp.insertMatch ∧
    applyOps db (syncMatchesOps (Except.ok ms)) = ms ∧
    syncRespond (Except.ok ms) = SyncResp.ok ms.length ∧
    (SyncResp.ok ms.length).statusCode = 200 ∧
    (getUpcomingMatches ms).Perm ms ∧
    List.Sorted matchLe (getUpcomingMatches ms) := by
  refine ⟨rfl, ?_, rfl, rfl, ?_, ?_⟩
  · show applyOps db (DbOp.deleteAllMatches :: ms.map DbOp.insertMatch) = ms
    show (ms.map DbOp.insertMatch).foldl applyOp (applyOp db .deleteAllMatches) = ms
    rw [foldl_insertMatch]
    rfl
  · exact List.perm_insertionSort matchLe ms
  · exact List.sorted_insertionSort matchLe ms

/-- C2: when the fetch phase of `POST /matches/sync` fails, no statement at
all is issued against `matches_upcoming` (in particular no delete and no
insert), the previously persisted set is left unchanged, and the response is
a 500 error. -/
theorem sync_fetch_failure_c2 (db : List MatchRec) (e : String) :
    syncMatchesOps (Except.error e) = [] ∧
    applyOps db (syncMatchesOps (Except.error e)) = db ∧
    syncRespond (Except.error e) =
      SyncResp.serverError "Error al sincronizar partidos" ∧
    (syncRespond (Except.error e)).statusCode = 500 :=
  ⟨rfl, rfl, rfl, rfl⟩

/-- C9: when the scrape completes without error but extracts zero records
(for instance the Upcoming Matches panel is absent, `page.evaluate` returns
an empty array, server.js line 523), the handler still issues the DELETE,
the table ends empty whatever it contained before, and the response is 200
with `{status: "ok", updated: 0}`. -/
theorem sync_zero_records_c9 (db : List MatchRec) :
    syncMatchesOps (Except.ok []) = [DbOp.deleteAllMatches] ∧
    applyOps db (syncMatchesOps (Except.ok [])) = [] ∧
    syncRespond (Except.ok []) = SyncResp.ok 0 ∧
    (syncRespond (Except.ok [])).statusCode = 200 :=
  ⟨rfl, rfl, rfl, rfl⟩

/-- Setting a key makes `Map.get` return the new value for that key. -/
theorem mapGet_mapSet_self {α : Type} (m : List (String × α)) (k : String)
    (v : α) : mapGet (mapSet m k v) k = some v := by
  induction m with
  | nil => simp [mapSet, mapGet]
  | cons kv rest ih =>
    obtain ⟨k0, v0⟩ := kv
    by_cases h : k0 = k <;> simp [mapSet, mapGet, h, ih]

/-- Setting a different key leaves `Map.get` of `k` unchanged. -/
theorem mapGet_mapSet_ne {α : Type} (m : List (String × α)) (q k : String)
    (v : α) (h : q ≠ k) : mapGet (mapSet m q v) k = mapGet m k := by
  induction m with
  | nil => simp [mapSet, mapGet, fun hq => h hq]
  | cons kv rest ih =>
    obtain ⟨k0, v0⟩ := kv
    by_cases h0 : k0 = q
    · subst h0
      simp [mapSet, mapGet, h]
    · by_cases hk : k0 = k <;> simp [mapSet, mapGet, h0, hk, Ne.symm h, ih]

/-- A cached player entry survives every cache mutation that neither
overwrites its key nor clears the cache. -/
theorem mapGet_preserved (k : String) (v : PlayerRow) :
    ∀ (evs : List CacheEvent) (c : MemoryCache),
      (∀ ev ∈ evs, touchesPlayer k ev = false) →
      mapGet c.playerByIdOrNickname k = some v →
      mapGet (evs.foldl stepCache c).playerByIdOrNickname k = some v := by
  intro evs
  induction evs with
  | nil => intro c _ h; exact h
  | cons ev rest ih =>
    intro c hall hc
    have hev : touchesPlayer k ev = false := hall ev (List.mem_cons_self ev rest)
    have hrest : ∀ e ∈ rest, touchesPlayer k e = false :=
      fun e he => hall e (List.mem_cons_of_mem _ he)
    apply ih _ hrest
    cases ev with
    | putPlayer q w =>
      have hq : q ≠ k := by simpa [touchesPlayer] using hev
      simpa [stepCache, mapGet_mapSet_ne _ q k w hq] using hc
    | putYears ys => simpa [stepCache] using hc
    | putRanking d n => simpa [stepCache] using hc
    | clearAll => simp [touchesPlayer] at hev

/-- C4: after the player-cache entry of key `k` is set to `v`, `Map.get(k)`
keeps returning `v` through every later cache mutation until one overwrites
`k` or clears the cache; in particular, after a first
`GET /players/:identifier` request caches the store's row, a second request
for the same identifier returns the identical payload and cache without
querying the store. -/
theorem cache_put_get_c4 (c : MemoryCache) (k : String) (v : PlayerRow)
    (evs : List CacheEvent) (h : ∀ ev ∈ evs, touchesPlayer k ev = false) :
    mapGet ((evs.foldl stepCache
        (stepCache c (.putPlayer k v)))).playerByIdOrNickname k = some v ∧
    (∀ (c0 : MemoryCache) (store : String → List PlayerRow) (p : PlayerRow)
        (rest : List PlayerRow),
      mapGet c0.playerByIdOrNickname k = none → store k = p :: rest →
      handleGetPlayer c0 store k =
        (.found p, stepCache c0 (.putPlayer k p), true) ∧
      handleGetPlayer (stepCache c0 (.putPlayer k p)) store k =
        (.found p, stepCache c0 (.putPlayer k p), false)) := by
  constructor
  · exact mapGet_preserved k v evs _ h (by simp [stepCache, mapGet_mapSet_self])
  · intro c0 store p rest hmiss hstore
    constructor
    · simp [handleGetPlayer, hmiss, hstore, stepCache]
    · simp [handleGetPlayer, stepCache, mapGet_mapSet_self]

/-- Concrete instance of C4: cache `p42` under `"42"`, mutate other keys,
and still read `p42` back; the first request for `"42"` stores the row. -/
theorem cache_put_get_c4_witness :
    mapGet (([CacheEvent.putPlayer "7" p7, CacheEvent.putYears []].foldl
        stepCache (stepCache initialMemoryCache
          (CacheEvent.putPlayer "42" p42)))).playerByIdOrNickname "42" =
      some p42 ∧
    handleGetPlayer initialMemoryCache
        (fun q => if q = "42" then [p42] else []) "42" =
      (.found p42, stepCache initialMemoryCache (CacheEvent.putPlayer "42" p42),
       true) := by
  have h := cache_put_get_c4 initialMemoryCache "42" p42
    [CacheEvent.putPlayer "7" p7, CacheEvent.putYears []] (by decide)
  exact ⟨h.1, (h.2 initialMemoryCache (fun q => if q = "42" then [p42] else [])
    p42 [] rfl (by simp)).1⟩

/-- C5: `POST /cache/clear` empties every cache slot: afterwards the years,
players, per-year, per-identifier, ranking and matches lookups all come back
absent, the ranking TTL check fails for every TTL and time, and an
immediately following `GET /years` queries the store instead of serving a
pre-clear array. -/
theorem cache_clear_c5 (c : MemoryCache) (k : String) (ttl now : Int)
    (storeYears : List YearRow) :
    (clearCache c).years = none ∧
    (clearCache c).players = none ∧
    mapGet (clearCache c).playersByYear k = none ∧
    mapGet (clearCache c).playerByIdOrNickname k = none ∧
    (clearCache c).ranking = none ∧
    checkRankingCache (clearCache c) ttl now = none ∧
    (clearCache c).«matches» = none ∧
    handleGetYears (clearCache c) storeYears =
      (storeYears, { clearCache c with years := some storeYears }, true) :=
  ⟨rfl, rfl, rfl, rfl, rfl, rfl, rfl, rfl⟩

/-- C7: on a cache miss, `GET /players/:identifier` answers 404
`Jugador no encontrado` when the store returns zero rows and caches nothing
(so a repeat request queries the store again); when the store returns at
least one row, the first row is returned with 200 and cached under the
identifier. -/
theorem player_not_found_c7 (c : MemoryCache)
    (store : String → List PlayerRow) (identifier : String)
    (hmiss : mapGet c.playerByIdOrNickname identifier = none) :
    (store identifier = [] →
      handleGetPlayer c store identifier =
        (.notFound "Jugador no encontrado", c, true) ∧
      (PlayerResp.notFound "Jugador no encontrado").statusCode = 404 ∧
      (handleGetPlayer (handleGetPlayer c store identifier).2.1
        store identifier).2.2 = true) ∧
    (∀ p rest, store identifier = p :: rest →
      handleGetPlayer c store identifier =
        (.found p,
         { c with playerByIdOrNickname :=
             mapSet c.playerByIdOrNickname identifier p },
         true) ∧
      mapGet (handleGetPlayer c store identifier).2.1.playerByIdOrNickname
        identifier = some p ∧
      (PlayerResp.found p).statusCode = 200) := by
  constructor
  · intro hempty
    refine ⟨?_, rfl, ?_⟩ <;> simp [handleGetPlayer, hmiss, hempty]
  · intro p rest hstore
    refine ⟨?_, ?_, rfl⟩ <;>
      simp [handleGetPlayer, hmiss, hstore, mapGet_mapSet_self]

/-- Concrete instance of C7: a store with no rows for `doesnotexist` makes
the handler answer 404 with the cache unchanged. -/
theorem player_not_found_c7_witness :
    handleGetPlayer initialMemoryCache (fun _ => []) "doesnotexist" =
      (.notFound "Jugador no encontrado", initialMemoryCache, true) :=
  ((player_not_found_c7 initialMemoryCache (fun _ => []) "doesnotexist"
    rfl).1 rfl).1

/-- C3 (amended): the ranking cache check returns the cached value `v` iff
the entry exists with a nonzero `computedAt` and `now - computedAt < ttl`
— the `computedAt ≠ 0` conjunct comes from JavaScript truthiness of the
stored number; and a failed freshness check never evicts the entry: a
refresh attempt whose fetch fails leaves the whole cache, hence `get`,
unchanged. -/
theorem ranking_ttl_c3 (c : MemoryCache) (ttl now : Int) :
    (∀ v, checkRankingCache c ttl now = some v ↔
      (c.ranking = some v ∧
       ∃ t, c.rankingTimestamp = some t ∧ t ≠ 0 ∧ now - t < ttl)) ∧
    (∀ msg, (handleRanking c now (Except.error msg)).2 = c) := by
  constructor
  · intro v
    cases hr : c.ranking with
    | none => simp [checkRankingCache, hr]
    | some w =>
      cases ht : c.rankingTimestamp with
      | none => simp [checkRankingCache, hr, ht]
      | some t =>
        by_cases hcond : t ≠ 0 ∧ now - t < ttl
        · simp [checkRankingCache, hr, ht, hcond.1, hcond.2]
        · simp only [checkRankingCache, hr, ht, if_neg hcond]
          constructor
          · intro h; exact absurd h (by simp)
          · rintro ⟨hw, t0, ht0, hne, hlt⟩
            cases ht0
            exact absurd ⟨hne, hlt⟩ hcond
  · intro msg
    cases h : checkRankingCache c CACHE_DURATION now <;>
      simp [handleRanking, h]

/-- Concrete instance of C3 (amended): a nonzero timestamp within the TTL
serves the cached ranking. -/
theorem ranking_ttl_c3_witness :
    checkRankingCache freshRankCache 100 10 = some [capsEntry] :=
  ((ranking_ttl_c3 freshRankCache 100 10).1 [capsEntry]).mpr
    ⟨rfl, 5, rfl, by decide, by decide⟩

/-- C3 as literally stated is false: with an entry computed at time 0, the
claimed condition `now - computedAt < ttl` holds at `now = 0`,
`ttl = 3600000`, yet the handler's check — `rankingTimestamp` being a falsy
number — treats the entry as absent and returns nothing. -/
theorem ranking_ttl_c3_counterexample :
    zeroTsCache.ranking = some [capsEntry] ∧
    zeroTsCache.rankingTimestamp = some 0 ∧
    ((0 : Int) - 0 < 3600000) ∧
    checkRankingCache zeroTsCache 3600000 0 = none := by
  refine ⟨rfl, rfl, by decide, by decide⟩

/-- Inserting `x` into a list only rearranges entries with strictly larger
`lp` in front of it, so the subsequence of entries carrying the key `x.lp`
gains `x` at its front and the subsequences of every other key are
untouched. -/
theorem filter_orderedInsert_rank (x : RankEntry) (v : Int) :
    ∀ l : List RankEntry,
      (List.orderedInsert rankGe x l).filter (fun e => e.lp == v) =
        if x.lp = v then x :: l.filter (fun e => e.lp == v)
        else l.filter (fun e => e.lp == v) := by
  intro l
  induction l with
  | nil =>
    by_cases hv : x.lp = v <;>
      simp [List.orderedInsert, List.filter_cons, hv]
  | cons y ys ih =>
    by_cases hxy : rankGe x y
    · simp only [List.orderedInsert, if_pos hxy]
      by_cases hv : x.lp = v <;> simp [List.filter_cons, hv]
    · have hxy2 : ¬ (y.lp ≤ x.lp) := hxy
      have hlt : x.lp < y.lp := not_le.mp hxy2
      simp only [List.orderedInsert, if_neg hxy]
      by_cases hv : x.lp = v
      · have hyv : y.lp ≠ v := by omega
        simp [List.filter_cons, hv, hyv, ih]
      · by_cases hy : y.lp = v <;> simp [List.filter_cons, hv, hy, ih]

/-- The stable descending sort keeps the entries of each `lp` value in
their original relative order. -/
theorem filter_sortRanking (l : List RankEntry) :
    ∀ v : Int, (sortRanking l).filter (fun e => e.lp == v) =
      l.filter (fun e => e.lp == v) := by
  induction l with
  | nil => intro v; rfl
  | cons x xs ih =>
    intro v
    show (List.orderedInsert rankGe x (sortRanking xs)).filter _ = _
    rw [filter_orderedInsert_rank]
    by_cases hv : x.lp = v <;> simp [List.filter_cons, hv, ih]

/-- C6: the ranking served by `GET /ranking` is the fetched list sorted by
league points descending — a permutation of the fetch result in which
entries with equal `lp` keep their original page order (stability, stated
via the per-key filtered subsequences); and a fetch that extracts zero
matching players makes the handler respond 200 with an empty array, not an
error. -/
theorem ranking_sorted_c6 (l : List RankEntry) (now : Int) :
    List.Sorted rankGe (sortRanking l) ∧
    (sortRanking l).Perm l ∧
    (∀ v : Int, (sortRanking l).filter (fun e => e.lp == v) =
      l.filter (fun e => e.lp == v)) ∧
    handleRanking initialMemoryCache now (Except.ok []) =
      (RankingResp.ok [],
       { initialMemoryCache with
           ranking := some [], rankingTimestamp := some now }) ∧
    (RankingResp.ok []).statusCode = 200 :=
  ⟨List.sorted_insertionSort rankGe l, List.perm_insertionSort rankGe l,
   filter_sortRanking l, rfl, rfl⟩

/-- When the matches list is already cached, one calendar request serves the
lookup from the cached list, changes nothing, and fetches nothing. -/
theorem calendarStep_cached (c : MemoryCache) (ms : List MatchRec)
    (hc : c.«matches» = some ms) (upstream : List MatchRec) (id : String)
    (now : Int) :
    calendarStep c upstream id now =
      ⟨(match ms.find? (fun m => m.id == id) with
         | none => CalResp.notFound
         | some m => CalResp.found m), c, false⟩ := by
  cases hfind : ms.find? (fun m => m.id == id) <;>
    simp [calendarStep, hc, hfind]

/-- C10: once `memoryCache.matches` holds a list `ms`, every later
`GET /calendar/:id` request serves from it without fetching and without
changing the cache — across any sequence of requests — and its response
ignores `matchesTimestamp` entirely (it is recorded but never compared to a
TTL); an id absent from `ms` is answered 404 even when the current store
content (`upstream`) contains it.  Only `POST /cache/clear` resets the list,
after which the next calendar request fetches again and caches the fresh
store content. -/
theorem calendar_populate_once_c10 (c : MemoryCache) (ms : List MatchRec)
    (hc : c.«matches» = some ms) :
    (∀ upstream id now,
      (calendarStep c upstream id now).cache = c ∧
      (calendarStep c upstream id now).fetched = false) ∧
    (∀ reqs : List (List MatchRec × String × Int),
      reqs.foldl (fun cc r => (calendarStep cc r.1 r.2.1 r.2.2).cache) c = c) ∧
    (∀ upstream id now, (∀ m ∈ ms, m.id ≠ id) →
      (calendarStep c upstream id now).resp = CalResp.notFound) ∧
    (∀ ts upstream id now,
      (calendarStep { c with matchesTimestamp := ts } upstream id now).resp =
        (calendarStep c upstream id now).resp) ∧
    (clearCache c).«matches» = none ∧
    (∀ upstream id now,
      (calendarStep (clearCache c) upstream id now).cache.«matches» =
        some upstream ∧
      (calendarStep (clearCache c) upstream id now).fetched = true) := by
  refine ⟨?_, ?_, ?_, ?_, rfl, ?_⟩
  · intro u i n
    rw [calendarStep_cached c ms hc u i n]
    exact ⟨rfl, rfl⟩
  · intro reqs
    induction reqs with
    | nil => rfl
    | cons r rest ih =>
      simp only [List.foldl_cons]
      rw [show (calendarStep c r.1 r.2.1 r.2.2).cache = c from
        by rw [calendarStep_cached c ms hc r.1 r.2.1 r.2.2]]
      exact ih
  · intro u i n hall
    have hfind : ms.find? (fun m => m.id == i) = none :=
      List.find?_eq_none.mpr (fun m hm => by simpa using hall m hm)
    rw [calendarStep_cached c ms hc u i n]
    simp [hfind]
  · intro ts u i n
    rw [calendarStep_cached { c with matchesTimestamp := ts } ms hc u i n,
      calendarStep_cached c ms hc u i n]
  · intro u i n
    cases hfind : u.find? (fun m => m.id == i) <;>
      exact ⟨by simp [calendarStep, clearCache, hfind],
             by simp [calendarStep, clearCache, hfind]⟩

/-- Concrete instance of C10: with `[mA]` cached, a request for `mB`'s id
does not fetch and is answered 404 although the store now holds `mB`. -/
theorem calendar_populate_once_c10_witness :
    (calendarStep calExample [mB] "nope" 99).fetched = false ∧
    (calendarStep calExample [mB] mB.id 99).resp = CalResp.notFound := by
  have h := calendar_populate_once_c10 calExample [mA] rfl
  exact ⟨(h.1 [mB] "nope" 99).2, (h.2.2.1 [mB] mB.id 99) (by decide)⟩

/-- C8 (amended): a missing or invalid bearer token is answered 401 before
any handler logic on every route registered after the `requireApiKey`
middleware — in particular `POST /matches/sync` in both revisions of
server.js; `POST /matches/sync-dpm`, however, is registered before the
middleware in the second revision, so such a request reaches its handler
with no token check at all. -/
theorem auth_gate_c8 (authHeader : Option String) (apiKey : String)
    (hbad : requireApiKey authHeader apiKey = false) :
    dispatch (requireApiKey authHeader apiKey) "POST" "/matches/sync"
      rev1App = .unauthorized ∧
    dispatch (requireApiKey authHeader apiKey) "POST" "/matches/sync"
      rev2App = .unauthorized ∧
    dispatch (requireApiKey authHeader apiKey) "POST" "/matches/sync-dpm"
      rev2App = .handled .syncDpm := by
  rw [hbad]
  refine ⟨?_, ?_, ?_⟩ <;> decide

/-- Concrete instance of C8 (amended): a request with no Authorization
header is answered 401 on `POST /matches/sync`. -/
theorem auth_gate_c8_witness :
    dispatch (requireApiKey none "secret") "POST" "/matches/sync" rev2App =
      Outcome.unauthorized :=
  (auth_gate_c8 none "secret" (by decide)).2.1

/-- C8 as literally stated is false for `POST /matches/sync-dpm` in the
second revision: a request with no Authorization header — for which
`requireApiKey` fails — is dispatched straight to the sync-dpm handler
instead of a 401, because the route is registered before
`app.use(requireApiKey)`. -/
theorem auth_gate_c8_counterexample :
    requireApiKey none "secret" = false ∧
    dispatch (requireApiKey none "secret") "POST" "/matches/sync-dpm"
      rev2App = Outcome.handled HandlerId.syncDpm := by
  exact ⟨by decide, by decide⟩
